import Mathlib

/-!
# Universal Accessibility Layer (src/UAL.js)

A shallow embedding of the script `src/UAL.js` and of the part of the DOM it
touches. The live document is an explicit value that every function receives
and returns, together with the console trace.

Modelling conventions.

* A document always has an `html` root whose element children are a `head` and
  a `body` (the script dereferences `document.head` and `document.body`
  without a check).
* Nodes are values: two nodes with the same tag, attributes and descendants
  are equal, so a deep copy of a node is a node equal to it.
* The `id` attribute is a string; the empty string stands for "no ID", as in
  the DOM standard, where an element whose `id` attribute is absent or empty
  has no ID.
* The tag of an element is its local name (lower case for an element the HTML
  parser or `createElement` made).
* A document is in quirks mode or not. In quirks mode class and ID selectors
  match ASCII case-insensitively; `getElementById` is case-sensitive always.
* `el.innerText = s` follows the rendered text fragment algorithm of the HTML
  standard: one text node per non-empty line and one `br` element per line
  break.
-/

namespace UAL

/-! ## DOM data model -/

/-- The attributes of an element: `id`, the tokens of `class`, and the rest as
name/value pairs. -/
structure Attrs where
  id : String
  classes : List String
  others : List (String × String)

/-- A DOM node: a text node or an element with a tag name, attributes and
child nodes. -/
inductive Node where
  | text (data : String)
  | element (tag : String) (attrs : Attrs) (children : List Node)

/-- The document: its mode (quirks or not), the attributes of the `html`,
`head` and `body` elements and the child nodes of `head` and `body`. -/
structure Document where
  quirksMode : Bool
  htmlAttrs : Attrs
  headAttrs : Attrs
  headChildren : List Node
  bodyAttrs : Attrs
  bodyChildren : List Node

/-- The attributes of an element fresh from `document.createElement`. -/
def Attrs.empty : Attrs := ⟨"", [], []⟩

/-- Tag name of a node (the empty string for a text node). -/
def Node.tag : Node → String
  | .text _ => ""
  | .element t _ _ => t

/-- The `id` attribute of a node (the empty string when it has none). -/
def Node.id : Node → String
  | .text _ => ""
  | .element _ a _ => a.id

/-- The class tokens of a node. -/
def Node.classes : Node → List String
  | .text _ => []
  | .element _ a _ => a.classes

/-- The child nodes of a node. -/
def Node.children : Node → List Node
  | .text _ => []
  | .element _ _ cs => cs

mutual
/-- The element `n` (when it is one) followed by its element descendants, in
tree order (preorder, depth first). -/
def Node.elements : Node → List Node
  | .text _ => []
  | .element t a cs => .element t a cs :: elementsOfList cs
/-- The elements of a list of sibling subtrees, in tree order. -/
def elementsOfList : List Node → List Node
  | [] => []
  | n :: ns => n.elements ++ elementsOfList ns
end

mutual
/-- DOM `node.cloneNode(deep)`: a copy of the node with its attributes, and
with copies of all its descendants when `deep` is true. -/
def Node.cloneNode (deep : Bool) : Node → Node
  | .text s => .text s
  | .element t a cs => .element t ⟨a.id, a.classes, a.others⟩ (if deep then cloneList cs else [])
/-- Deep copies of a list of sibling nodes. -/
def cloneList : List Node → List Node
  | [] => []
  | n :: ns => n.cloneNode true :: cloneList ns
end

mutual
/-- DOM `node.textContent`: the data of the text node, or the concatenation of
the data of all text node descendants of the element, in tree order. -/
def Node.textContent : Node → String
  | .text s => s
  | .element _ _ cs => textContentOfList cs
/-- The concatenated text content of a list of sibling nodes. -/
def textContentOfList : List Node → String
  | [] => ""
  | n :: ns => n.textContent ++ textContentOfList ns
end

/-- The `head` element of the document. -/
def Document.head (d : Document) : Node := .element "head" d.headAttrs d.headChildren

/-- The `body` element of the document. -/
def Document.body (d : Document) : Node := .element "body" d.bodyAttrs d.bodyChildren

/-- The root `html` element of the document. -/
def Document.documentElement (d : Document) : Node :=
  .element "html" d.htmlAttrs [d.head, d.body]

/-- All elements of the document in tree order: `html`, `head`, the
descendants of `head`, `body`, the descendants of `body`. -/
def Document.elements (d : Document) : List Node := d.documentElement.elements

/-- An element has ID `i` when `i` is not empty and is the value of its `id`
attribute (DOM standard: an empty `id` attribute gives the element no ID). -/
def Node.hasId (n : Node) (i : String) : Bool := i ≠ "" && n.id == i

/-- DOM `document.getElementById(id)`: the first element in tree order whose
ID is `id`. -/
def Document.getElementById (d : Document) (i : String) : Option Node :=
  d.elements.find? (fun e => e.hasId i)

/-- The selectors the script passes to `querySelector`. -/
inductive Selector where
  | tag (name : String)
  | id (i : String)
  | cls (c : String)

/-- ASCII lower case of a string: `A`-`Z` become `a`-`z`, every other
character is kept. -/
def asciiLower (s : String) : String := String.mk (s.data.map Char.toLower)

/-- Comparison of an identifier or class name of an element with the name in
a selector: ASCII case-insensitive in a quirks-mode document, exact
otherwise. -/
def sameName (quirks : Bool) (a b : String) : Bool :=
  if quirks then asciiLower a == asciiLower b else a == b

/-- Whether an element matches a simple selector in a document of the given
mode. A type selector compares the local name; an ID selector needs an element
with an ID; a class selector needs one of the class tokens. -/
def Selector.matches (quirks : Bool) : Selector → Node → Bool
  | .tag name, n => n.tag == name
  | .id i, n => n.id != "" && sameName quirks n.id i
  | .cls c, n => n.classes.any (fun k => sameName quirks k c)

/-- DOM `document.querySelector(sel)`: the first element in tree order that
matches the selector. -/
def Document.querySelector (d : Document) (sel : Selector) : Option Node :=
  d.elements.find? (fun e => sel.matches d.quirksMode e)

/-- DOM `document.createElement(tag)`: a new element with no attributes and no
children, not yet in the document. -/
def createElement (tag : String) : Node := .element tag Attrs.empty []

/-- The assignment `el.id = i`. -/
def Node.setId (i : String) : Node → Node
  | .text s => .text s
  | .element t a cs => .element t ⟨i, a.classes, a.others⟩ cs

/-- An assignment `el.name = value` to a reflected attribute other than `id`
and `class` (here `href` and `rel`). -/
def Node.setAttr (name value : String) : Node → Node
  | .text s => .text s
  | .element t a cs =>
    .element t ⟨a.id, a.classes, a.others.filter (fun kv => kv.1 != name) ++ [(name, value)]⟩ cs

/-- A `br` element as the `innerText` setter creates it. -/
def brElement : Node := .element "br" Attrs.empty []

/-- The text node for the characters collected so far, when there are any. -/
def flushText (pending : List Char) : List Node :=
  if pending.isEmpty then [] else [.text (String.mk pending)]

/-- The loop of the rendered text fragment algorithm: characters other than
LF and CR are collected into a text node; each LF, CR or CR LF pair ends the
text collected so far and gives one `br` element. -/
def fragmentLoop (pending : List Char) : List Char → List Node
  | [] => flushText pending
  | c :: rest =>
    if c = '\n' then flushText pending ++ brElement :: fragmentLoop [] rest
    else if c = '\r' then
      match rest with
      | [] => flushText pending ++ [brElement]
      | c2 :: rest2 =>
        if c2 = '\n' then flushText pending ++ brElement :: fragmentLoop [] rest2
        else flushText pending ++ brElement :: fragmentLoop [] (c2 :: rest2)
    else fragmentLoop (pending ++ [c]) rest

/-- The rendered text fragment of a string (HTML standard): the nodes the
`innerText` setter puts in place of the children. The empty string gives no
node. -/
def renderedTextFragment (s : String) : List Node := fragmentLoop [] s.data

/-- The assignment `el.innerText = s`: the children are replaced by the
rendered text fragment of `s`. -/
def Node.setInnerText (s : String) : Node → Node
  | .text d => .text d
  | .element t a _ => .element t a (renderedTextFragment s)

/-- DOM `parent.appendChild(child)` for a child that is not in the document:
the child becomes the last child. -/
def Node.appendChild (parent child : Node) : Node :=
  match parent with
  | .text d => .text d
  | .element t a cs => .element t a (cs ++ [child])

/-- The call `document.head.appendChild(child)`. -/
def Document.headAppendChild (d : Document) (child : Node) : Document :=
  { d with headChildren := d.headChildren ++ [child] }

/-- The assignment `document.body.innerHTML = ''`: every child of the body is
removed. -/
def Document.bodyClear (d : Document) : Document :=
  { d with bodyChildren := [] }

/-- The call `document.body.appendChild(child)`. -/
def Document.bodyAppendChild (d : Document) (child : Node) : Document :=
  { d with bodyChildren := d.bodyChildren ++ [child] }

/-! ## The script -/

/-- The user's accessibility profile (`userProfile`). -/
structure Profile where
  hasLowVision : Bool
  hasDyslexia : Bool
  needsSimplifiedLayout : Bool

/-- The profile written into the script. -/
def userProfile : Profile :=
  { hasLowVision := true, hasDyslexia := true, needsSimplifiedLayout := true }

/-- One line of the console. -/
inductive LogEntry where
  | log (msg : String)
  | logProfile (msg : String) (p : Profile)
  | warn (msg : String)

/-- What the script reads and writes: the document and the console. -/
structure Page where
  document : Document
  console : List LogEntry

/-- The value a JavaScript call evaluates to, as far as the script needs it. -/
inductive JsValue where
  | undefined
  | bool (b : Bool)

/-- The call `console.clear()`. -/
def consoleClear (s : Page) : Page := { s with console := [] }

/-- The call `console.log(msg)`. -/
def consoleLog (msg : String) (s : Page) : Page :=
  { s with console := s.console ++ [.log msg] }

/-- The call `console.log(msg, profile)`. -/
def consoleLogProfile (msg : String) (p : Profile) (s : Page) : Page :=
  { s with console := s.console ++ [.logProfile msg p] }

/-- The call `console.warn(msg)`. -/
def consoleWarn (msg : String) (s : Page) : Page :=
  { s with console := s.console ++ [.warn msg] }

/-- The function `injectStyles(styles, id)` of UAL.js, lines 27-35. -/
def injectStyles (styles id : String) (s : Page) : Page :=
  match s.document.getElementById id with
  | some _ => s
  | none =>
    let styleSheet := createElement "style"
    let styleSheet := styleSheet.setId id
    let styleSheet := styleSheet.setInnerText styles
    { s with document := s.document.headAppendChild styleSheet }

/-- The rule text `css` built by `applyHighContrast`. -/
def highContrastCss : String :=
  "\n" ++
  "            body, body * \x7b\n" ++
  "                background-color: #121212 !important;\n" ++
  "                color: #E0E0E0 !important;\n" ++
  "                border-color: #555 !important;\n" ++
  "            \x7d\n" ++
  "            a \x7b\n" ++
  "                color: #BB86FC !important;\n" ++
  "            \x7d\n" ++
  "            img, video, iframe \x7b\n" ++
  "                filter: grayscale(50%) brightness(80%);\n" ++
  "            \x7d\n" ++
  "        "

/-- The function `applyHighContrast()` of UAL.js, lines 40-56. -/
def applyHighContrast (s : Page) : Page :=
  let s := injectStyles highContrastCss "ual-high-contrast" s
  consoleLog "UAL: High Contrast Mode Applied." s

/-- The rule text `css` built by `applyDyslexiaFriendlyFont`. -/
def dyslexicFontCss : String :=
  "\n" ++
  "            body, p, h1, h2, h3, li, a, span \x7b\n" ++
  "                font-family: \x27Open Dyslexic\x27, sans-serif !important;\n" ++
  "            \x7d\n" ++
  "        "

/-- The function `applyDyslexiaFriendlyFont()` of UAL.js, lines 61-78. -/
def applyDyslexiaFriendlyFont (s : Page) : Page :=
  let fontLink := createElement "link"
  let fontLink :=
    fontLink.setAttr "href" "https://fonts.googleapis.com/css2?family=Open+Dyslexic&display=swap"
  let fontLink := fontLink.setAttr "rel" "stylesheet"
  let fontLink := fontLink.setId "ual-dyslexic-font-link"
  let s :=
    match s.document.getElementById fontLink.id with
    | none => { s with document := s.document.headAppendChild fontLink }
    | some _ => s
  let s := injectStyles dyslexicFontCss "ual-dyslexic-font-style" s
  consoleLog "UAL: Dyslexia-Friendly Font Applied." s

/-- The rule text `css` built by `simplifyLayout`. -/
def readerModeCss : String :=
  "\n" ++
  "                #ual-reader-view \x7b\n" ++
  "                    max-width: 800px;\n" ++
  "                    margin: 2rem auto;\n" ++
  "                    padding: 2rem;\n" ++
  "                    line-height: 1.8;\n" ++
  "                    font-size: 1.2rem;\n" ++
  "                \x7d\n" ++
  "                body \x7b\n" ++
  "                    background-color: #f5f5f5 !important;\n" ++
  "                \x7d\n" ++
  "            "

/-- The JavaScript `a || b` on two query results: `a` when it is an element,
else `b`. -/
def jsOr (a b : Option Node) : Option Node :=
  match a with
  | some n => some n
  | none => b

/-- The value of `mainContent` in `simplifyLayout` (UAL.js, line 86). -/
def mainContent (d : Document) : Option Node :=
  jsOr (jsOr (jsOr (d.querySelector (.tag "main")) (d.querySelector (.tag "article")))
    (d.querySelector (.id "content"))) (d.querySelector (.cls "post"))

/-- The function `simplifyLayout()` of UAL.js, lines 84-116: the value it
returns and the page it leaves. -/
def simplifyLayout (s : Page) : JsValue × Page :=
  match mainContent s.document with
  | some mc =>
    let readerView := createElement "div"
    let readerView := readerView.setId "ual-reader-view"
    let readerView := readerView.appendChild (mc.cloneNode true)
    let d := s.document.bodyClear
    let d := d.bodyAppendChild readerView
    let s := injectStyles readerModeCss "ual-reader-mode" { s with document := d }
    (.undefined, consoleLog "UAL: Simplified Layout (Reader Mode) Applied." s)
  | none =>
    (.undefined, consoleWarn "UAL: Could not identify main content for Reader Mode." s)

/-- The function `applyUAL()` of UAL.js, lines 122-146, with the profile it
reads as a parameter. -/
def applyUAL (userProfile : Profile) (s : Page) : Page :=
  let s := consoleClear s
  let s := consoleLog "Applying Universal Accessibility Layer..." s
  let s := consoleLogProfile "User Profile:" userProfile s
  if userProfile.needsSimplifiedLayout then
    let s := (simplifyLayout s).2
    let s := if userProfile.hasLowVision then applyHighContrast s else s
    let s := if userProfile.hasDyslexia then applyDyslexiaFriendlyFont s else s
    s
  else
    let s := if userProfile.hasLowVision then applyHighContrast s else s
    let s := if userProfile.hasDyslexia then applyDyslexiaFriendlyFont s else s
    consoleLog "UAL application complete." s

/-- The script as a whole: `applyUAL()` run with the built-in profile. -/
def run (s : Page) : Page := applyUAL userProfile s

/-! ## Specification vocabulary -/

/-- The elements inside the head: the descendants of the `head` element, in
tree order. -/
def Document.headElements (d : Document) : List Node := elementsOfList d.headChildren

/-- The elements inside the body: the descendants of the `body` element, in
tree order. -/
def Document.bodyElements (d : Document) : List Node := elementsOfList d.bodyChildren

/-- The style element `injectStyles(rules, id)` builds: its children are the
rendered text fragment of `rules`, as the `innerText` setter leaves them. -/
def styleBlock (rules id : String) : Node :=
  .element "style" ⟨id, [], []⟩ (renderedTextFragment rules)

/-- The reader container wrapping `content`. -/
def readerView (content : Node) : Node :=
  .element "div" ⟨"ual-reader-view", [], []⟩ [content]

/-- The link element `applyDyslexiaFriendlyFont` builds. -/
def fontLink : Node :=
  .element "link"
    ⟨"ual-dyslexic-font-link", [],
      [("href", "https://fonts.googleapis.com/css2?family=Open+Dyslexic&display=swap"),
       ("rel", "stylesheet")]⟩ []

/-- The ordered selector strategies of the layout transform. -/
def contentSelectors : List Selector :=
  [.tag "main", .tag "article", .id "content", .cls "post"]

/-- The identifiers the layer gives to the elements it creates. -/
def injectedIds : List String :=
  ["ual-reader-view", "ual-reader-mode", "ual-high-contrast", "ual-dyslexic-font-link",
   "ual-dyslexic-font-style"]

/-- A document with empty head and body and no attributes. -/
def emptyDocument : Document := ⟨false, Attrs.empty, Attrs.empty, [], Attrs.empty, []⟩

/-- A document whose only element with an `id` sits in the body. -/
def bannerDocument : Document :=
  ⟨false, Attrs.empty, Attrs.empty, [], Attrs.empty, [.element "div" ⟨"banner", [], []⟩ []]⟩

/-- A document whose body holds a navigation bar, an `article` and then a
`main` element: the article comes first in tree order. -/
def articleBeforeMainDocument : Document :=
  ⟨false, Attrs.empty, Attrs.empty, [.element "title" Attrs.empty [.text "News"]], Attrs.empty,
    [.element "nav" Attrs.empty [.text "menu"],
     .element "article" ⟨"story", [], []⟩ [.element "p" Attrs.empty [.text "aside"]],
     .element "main" Attrs.empty [.element "p" Attrs.empty [.text "body text"]],
     .element "footer" Attrs.empty []]⟩

/-- A document whose body holds a navigation bar, an `article` and a footer. -/
def articleDocument : Document :=
  ⟨false, Attrs.empty, Attrs.empty, [.element "title" Attrs.empty [.text "News"]], Attrs.empty,
    [.element "nav" Attrs.empty [.text "menu"],
     .element "article" ⟨"story", [], []⟩ [.element "p" Attrs.empty [.text "text"]],
     .element "footer" Attrs.empty []]⟩

/-- A document with none of the four content markers. -/
def plainDocument : Document :=
  ⟨false, Attrs.empty, Attrs.empty, [.element "title" Attrs.empty [.text "Home"]], Attrs.empty,
    [.element "div" ⟨"wrapper", ["page"], []⟩ [.element "p" Attrs.empty [.text "hello"]],
     .text "tail"]⟩

/-- A document whose `body` element itself carries the class `post`. -/
def postBodyDocument : Document :=
  ⟨false, Attrs.empty, Attrs.empty, [], ⟨"", ["post"], []⟩, [.text "hello"]⟩

/-- Runs the transform when the flag is set, and nothing otherwise. -/
def runWhen (flag : Bool) (transform : Page → Page) (s : Page) : Page :=
  if flag then transform s else s

/-- The orchestration policy in the words of the specification: the layout
transform when `needsSimplifiedLayout`, then the contrast transform when
`hasLowVision`, then the typography transform when `hasDyslexia`. -/
def pipeline (p : Profile) (s : Page) : Page :=
  runWhen p.hasDyslexia applyDyslexiaFriendlyFont
    (runWhen p.hasLowVision applyHighContrast
      (runWhen p.needsSimplifiedLayout (fun t => (simplifyLayout t).2) s))

/-- The page after the three console calls that open `applyUAL`. -/
def applyUAL_header (p : Profile) (s : Page) : Page :=
  consoleLogProfile "User Profile:" p
    (consoleLog "Applying Universal Accessibility Layer..." (consoleClear s))

/-- A document, not in quirks mode, whose body holds an element of class
`post` followed by an element with ID `content`. -/
def postBeforeContentDocument : Document :=
  ⟨false, Attrs.empty, Attrs.empty, [], Attrs.empty,
    [.element "div" ⟨"", ["post"], []⟩ [.text "teaser"],
     .element "section" ⟨"content", [], []⟩ [.text "story"]]⟩

/-- A quirks-mode document whose only content marker is the class `POST`,
written in upper case. -/
def quirksPostDocument : Document :=
  ⟨true, Attrs.empty, Attrs.empty, [], Attrs.empty,
    [.element "div" ⟨"", ["POST"], []⟩ [.text "story"]]⟩

/-- The document `quirksPostDocument` with a doctype (not in quirks mode). -/
def strictPostDocument : Document :=
  ⟨false, Attrs.empty, Attrs.empty, [], Attrs.empty,
    [.element "div" ⟨"", ["POST"], []⟩ [.text "story"]]⟩

/-! ## Lemmas on the DOM model -/

mutual
theorem cloneNode_true_eq : ∀ n : Node, n.cloneNode true = n
  | .text _ => by simp [Node.cloneNode]
  | .element t a cs => by simp [Node.cloneNode, cloneList_eq cs]
theorem cloneList_eq : ∀ ns : List Node, cloneList ns = ns
  | [] => by simp [cloneList]
  | n :: ns => by simp [cloneList, cloneNode_true_eq n, cloneList_eq ns]
end

mutual
theorem mem_elements_self : ∀ (n m : Node), m ∈ n.elements → m ∈ m.elements
  | .text _, m, h => by simp [Node.elements] at h
  | .element t a cs, m, h => by
    simp only [Node.elements, List.mem_cons] at h
    rcases h with h | h
    · subst h; simp [Node.elements]
    · exact mem_elementsOfList_self cs m h
theorem mem_elementsOfList_self : ∀ (ns : List Node) (m : Node), m ∈ elementsOfList ns → m ∈ m.elements
  | [], m, h => by simp [elementsOfList] at h
  | n :: ns, m, h => by
    simp only [elementsOfList, List.mem_append] at h
    rcases h with h | h
    · exact mem_elements_self n m h
    · exact mem_elementsOfList_self ns m h
end

mutual
theorem elements_subset : ∀ (n m : Node), m ∈ n.elements → ∀ x ∈ m.elements, x ∈ n.elements
  | .text _, m, h => by simp [Node.elements] at h
  | .element t a cs, m, h => by
    simp only [Node.elements, List.mem_cons] at h
    rcases h with h | h
    · subst h; intro x hx; exact hx
    · intro x hx
      simp only [Node.elements, List.mem_cons]
      exact Or.inr (elementsOfList_subset cs m h x hx)
theorem elementsOfList_subset : ∀ (ns : List Node) (m : Node), m ∈ elementsOfList ns →
    ∀ x ∈ m.elements, x ∈ elementsOfList ns
  | [], m, h => by simp [elementsOfList] at h
  | n :: ns, m, h => by
    simp only [elementsOfList, List.mem_append] at h
    intro x hx
    simp only [elementsOfList, List.mem_append]
    rcases h with h | h
    · exact Or.inl (elements_subset n m h x hx)
    · exact Or.inr (elementsOfList_subset ns m h x hx)
end

theorem elementsOfList_append (xs ys : List Node) :
    elementsOfList (xs ++ ys) = elementsOfList xs ++ elementsOfList ys := by
  induction xs with
  | nil => simp [elementsOfList]
  | cons x xs ih => simp [elementsOfList, ih]

theorem Document.elements_eq (d : Document) :
    d.elements = d.documentElement :: d.head :: (d.headElements ++ d.body :: d.bodyElements) := by
  simp [Document.elements, Document.documentElement, Node.elements, elementsOfList,
    Document.head, Document.body, Document.headElements, Document.bodyElements]

/-! ## The rendered text fragment -/

theorem elementsOfList_flushText (pending : List Char) :
    elementsOfList (flushText pending) = [] := by
  unfold flushText
  split <;> simp [elementsOfList, Node.elements]

theorem elementsOfList_brElement_cons (l : List Node) :
    elementsOfList (brElement :: l) = brElement :: elementsOfList l := by
  simp [elementsOfList, brElement, Node.elements]

/-- The only elements of a rendered text fragment are `br` elements. -/
theorem elementsOfList_fragmentLoop (n : Nat) :
    ∀ (cs pending : List Char), cs.length ≤ n →
      ∀ e ∈ elementsOfList (fragmentLoop pending cs), e = brElement := by
  induction n with
  | zero =>
    intro cs pending h e he
    have : cs = [] := List.length_eq_zero.mp (Nat.le_zero.mp h)
    subst this
    simp [fragmentLoop, elementsOfList_flushText] at he
  | succ n ih =>
    intro cs pending h e he
    match cs, h with
    | [], _ => simp [fragmentLoop, elementsOfList_flushText] at he
    | c :: rest, h =>
      have hr : rest.length ≤ n := by simpa using h
      unfold fragmentLoop at he
      split at he
      · rw [elementsOfList_append, elementsOfList_flushText, List.nil_append,
          elementsOfList_brElement_cons, List.mem_cons] at he
        rcases he with he | he
        · exact he
        · exact ih rest [] hr e he
      · split at he
        · split at he
          · rw [elementsOfList_append, elementsOfList_flushText, List.nil_append] at he
            simpa [elementsOfList, brElement, Node.elements] using he
          · rename_i c2 rest2
            have hr2 : rest2.length ≤ n := by
              simp only [List.length_cons] at hr
              omega
            split at he
            · rw [elementsOfList_append, elementsOfList_flushText, List.nil_append,
                elementsOfList_brElement_cons, List.mem_cons] at he
              rcases he with he | he
              · exact he
              · exact ih rest2 [] hr2 e he
            · rw [elementsOfList_append, elementsOfList_flushText, List.nil_append,
                elementsOfList_brElement_cons, List.mem_cons] at he
              rcases he with he | he
              · exact he
              · exact ih (c2 :: rest2) [] hr e he
        · exact ih rest _ hr e he

theorem elementsOfList_renderedTextFragment (rules : String) :
    ∀ e ∈ elementsOfList (renderedTextFragment rules), e = brElement :=
  elementsOfList_fragmentLoop rules.data.length rules.data [] (Nat.le_refl _)

theorem styleBlock_elements (rules i : String) :
    (styleBlock rules i).elements =
      styleBlock rules i :: elementsOfList (renderedTextFragment rules) := by
  simp [styleBlock, Node.elements]

/-- Inside a style block only the style element itself has an ID. -/
theorem styleBlock_hasId_false (rules i j : String) (h : i ≠ j) :
    ∀ e ∈ (styleBlock rules i).elements, e.hasId j = false := by
  intro e he
  rw [styleBlock_elements, List.mem_cons] at he
  rcases he with rfl | he
  · simp [styleBlock, Node.hasId, Node.id, h]
  · rw [elementsOfList_renderedTextFragment rules e he]
    by_cases hj : j = ""
    · simp [Node.hasId, hj]
    · simp [Node.hasId, brElement, Node.id, Attrs.empty, Ne.symm hj]

theorem styleBlock_hasId (rules i : String) (hi : i ≠ "") : (styleBlock rules i).hasId i = true := by
  simp [styleBlock, Node.hasId, Node.id, hi]

/-! ## StyleInjector -/

theorem getElementById_eq_none_iff (d : Document) (i : String) :
    d.getElementById i = none ↔ ∀ e ∈ d.elements, e.hasId i = false := by
  simp [Document.getElementById, List.find?_eq_none]

theorem any_hasId_eq_false_iff (d : Document) (i : String) :
    d.elements.any (fun e => e.hasId i) = false ↔ d.getElementById i = none := by
  rw [getElementById_eq_none_iff]
  simp [List.any_eq_false]

theorem injectStyles_of_none (rules i : String) (s : Page)
    (h : s.document.getElementById i = none) :
    injectStyles rules i s =
      { s with document := s.document.headAppendChild (styleBlock rules i) } := by
  simp [injectStyles, h, createElement, Node.setId, Node.setInnerText, styleBlock, Attrs.empty]

theorem injectStyles_of_some (rules i : String) (s : Page) (e : Node)
    (h : s.document.getElementById i = some e) : injectStyles rules i s = s := by
  simp [injectStyles, h]

theorem headElements_headAppendChild (d : Document) (x : Node) :
    (d.headAppendChild x).headElements = d.headElements ++ x.elements := by
  simp [Document.headAppendChild, Document.headElements, elementsOfList_append, elementsOfList]

theorem getElementById_headAppendChild_styleBlock (d : Document) (rules i : String)
    (hi : i ≠ "") : ((d.headAppendChild (styleBlock rules i)).getElementById i).isSome = true := by
  simp only [Document.getElementById, List.find?_isSome]
  refine ⟨styleBlock rules i, ?_, styleBlock_hasId rules i hi⟩
  rw [Document.elements_eq, headElements_headAppendChild, styleBlock_elements]
  simp

/-- The guard of `injectStyles` looks at the whole document: the page is kept
when any element has the ID, and otherwise the head gains the style block as
its last child and nothing else changes. -/
theorem injectStyles_eq_ite (rules i : String) (s : Page) :
    injectStyles rules i s =
      if s.document.elements.any (fun e => e.hasId i) then s
      else { s with document :=
              { s.document with
                headChildren := s.document.headChildren ++ [styleBlock rules i] } } := by
  cases h : s.document.elements.any (fun e => e.hasId i)
  · rw [any_hasId_eq_false_iff] at h
    simp [injectStyles_of_none rules i s h, Document.headAppendChild]
  · have : (s.document.getElementById i).isSome = true := by
      simpa [Document.getElementById, List.find?_isSome] using h
    obtain ⟨e, he⟩ := Option.isSome_iff_exists.mp this
    simp [injectStyles_of_some rules i s e he]

/-- For a non-empty identifier a second `injectStyles` call leaves every page
as the first call left it. -/
theorem injectStyles_injectStyles (r1 r2 i : String) (s : Page) (hi : i ≠ "") :
    injectStyles r2 i (injectStyles r1 i s) = injectStyles r1 i s := by
  cases h : s.document.getElementById i with
  | some e =>
    rw [injectStyles_of_some r1 i s e h, injectStyles_of_some r2 i s e h]
  | none =>
    rw [injectStyles_of_none r1 i s h]
    have hs := getElementById_headAppendChild_styleBlock s.document r1 i hi
    obtain ⟨e, he⟩ := Option.isSome_iff_exists.mp hs
    exact injectStyles_of_some r2 i _ e he

theorem injectStyles_console (rules i : String) (s : Page) :
    (injectStyles rules i s).console = s.console := by
  cases h : s.document.getElementById i with
  | some e => rw [injectStyles_of_some rules i s e h]
  | none => rw [injectStyles_of_none rules i s h]

theorem injectStyles_bodyChildren (rules i : String) (s : Page) :
    (injectStyles rules i s).document.bodyChildren = s.document.bodyChildren := by
  cases h : s.document.getElementById i with
  | some e => rw [injectStyles_of_some rules i s e h]
  | none => rw [injectStyles_of_none rules i s h]; rfl

theorem injectStyles_quirksMode (rules i : String) (s : Page) :
    (injectStyles rules i s).document.quirksMode = s.document.quirksMode := by
  cases h : s.document.getElementById i with
  | some e => rw [injectStyles_of_some rules i s e h]
  | none => rw [injectStyles_of_none rules i s h]; rfl

/-- C2, evaluated where the code departs from it. On the empty document, which
has no element with the ID "x", `injectStyles("a\nb", "x")` followed by
`injectStyles("c", "x")` leaves one style element with that ID, but its
content is not the first call's rule text: the `innerText` setter has put a
`br` element in place of the line feed, and the text read back is "ab". With
the empty identifier the guard never fires: both calls append, the head holds
two style elements, and the second call has changed what the first left. -/
theorem injectStyles_twice_at_failing_inputs :
    (∀ e ∈ emptyDocument.elements, e.hasId "x" = false) ∧
    (injectStyles "c" "x" (injectStyles "a\nb" "x" ⟨emptyDocument, []⟩)).document.headChildren =
      [.element "style" ⟨"x", [], []⟩ [.text "a", brElement, .text "b"]] ∧
    (Node.element "style" ⟨"x", [], []⟩ [.text "a", brElement, .text "b"]).textContent = "ab" ∧
    (Node.element "style" ⟨"x", [], []⟩ [.text "a", brElement, .text "b"]).textContent ≠ "a\nb" ∧
    (∀ e ∈ emptyDocument.elements, e.hasId "" = false) ∧
    (injectStyles "a" "" ⟨emptyDocument, []⟩).document.headChildren =
      [.element "style" ⟨"", [], []⟩ [.text "a"]] ∧
    (injectStyles "b" "" (injectStyles "a" "" ⟨emptyDocument, []⟩)).document.headChildren =
      [.element "style" ⟨"", [], []⟩ [.text "a"], .element "style" ⟨"", [], []⟩ [.text "b"]] :=
  ⟨by decide, rfl, rfl, by decide, by decide, rfl, rfl⟩

/-- C3, evaluated where the code departs from it. In `bannerDocument` the head
is empty, so no element in the head has the ID "banner", yet
`injectStyles("a", "banner")` appends nothing, because the guard finds the
`div` with that ID in the body. And on the empty document the style element
appended for the rule text "a\nb" does not have that text as its content: it
holds the text "a", a `br` element and the text "b". -/
theorem injectStyles_at_failing_inputs :
    bannerDocument.headChildren = [] ∧
    (∀ e ∈ bannerDocument.headElements, e.hasId "banner" = false) ∧
    (injectStyles "a" "banner" ⟨bannerDocument, []⟩).document = bannerDocument ∧
    (injectStyles "a" "banner" ⟨bannerDocument, []⟩).document.headChildren = [] ∧
    (injectStyles "a\nb" "x" ⟨emptyDocument, []⟩).document.headChildren =
      [.element "style" ⟨"x", [], []⟩ [.text "a", brElement, .text "b"]] ∧
    (Node.element "style" ⟨"x", [], []⟩ [.text "a", brElement, .text "b"]).textContent ≠ "a\nb" :=
  ⟨rfl, by decide, rfl, rfl, rfl, by decide⟩

/-! ## LayoutTransform -/

theorem querySelector_eq_none_iff (d : Document) (sel : Selector) :
    d.querySelector sel = none ↔ ∀ e ∈ d.elements, sel.matches d.quirksMode e = false := by
  simp [Document.querySelector, List.find?_eq_none]

/-- The `||` chain of line 86 is a first-success search through the four
selectors in their order. -/
theorem mainContent_eq_findSome? (d : Document) :
    mainContent d = contentSelectors.findSome? (fun sel => d.querySelector sel) := by
  unfold mainContent contentSelectors
  cases h1 : d.querySelector (.tag "main") <;>
    cases h2 : d.querySelector (.tag "article") <;>
    cases h3 : d.querySelector (.id "content") <;>
    cases h4 : d.querySelector (.cls "post") <;>
    simp [jsOr, List.findSome?, h1, h2, h3, h4]

/-- What `mainContent` yields, said without the code: `n` is chosen exactly
when some selector of the list has `n` as its first match in tree order and no
selector before it in the list matches any element. -/
theorem mainContent_eq_some_iff (d : Document) (n : Node) :
    mainContent d = some n ↔
      ∃ pre sel post before after, contentSelectors = pre ++ sel :: post ∧
        (∀ s' ∈ pre, ∀ e ∈ d.elements, s'.matches d.quirksMode e = false) ∧
        d.elements = before ++ n :: after ∧ sel.matches d.quirksMode n = true ∧
        ∀ e ∈ before, sel.matches d.quirksMode e = false := by
  rw [mainContent_eq_findSome?, List.findSome?_eq_some_iff]
  constructor
  · rintro ⟨pre, sel, post, hs, hq, hpre⟩
    simp only [Document.querySelector, List.find?_eq_some] at hq
    obtain ⟨hp, before, after, hl, hb⟩ := hq
    refine ⟨pre, sel, post, before, after, hs, ?_, hl, hp, fun e he => by simpa using hb e he⟩
    intro s' hs' e he
    exact (querySelector_eq_none_iff d s').mp (hpre s' hs') e he
  · rintro ⟨pre, sel, post, before, after, hs, hpre, hl, hp, hb⟩
    refine ⟨pre, sel, post, hs, ?_, ?_⟩
    · simp only [Document.querySelector, List.find?_eq_some]
      exact ⟨hp, before, after, hl, fun e he => by simp [hb e he]⟩
    · intro s' hs'
      exact (querySelector_eq_none_iff d s').mpr (hpre s' hs')

theorem mainContent_eq_none_iff (d : Document) :
    mainContent d = none ↔
      ∀ e ∈ d.elements, ∀ sel ∈ contentSelectors, sel.matches d.quirksMode e = false := by
  rw [mainContent_eq_findSome?, List.findSome?_eq_none_iff]
  constructor
  · intro h e he sel hsel
    exact (querySelector_eq_none_iff d sel).mp (h sel hsel) e he
  · intro h sel hsel
    exact (querySelector_eq_none_iff d sel).mpr (fun e he => h e he sel hsel)

theorem mainContent_isSome_iff (d : Document) :
    (∃ mc, mainContent d = some mc) ↔
      ∃ e ∈ d.elements, ∃ sel ∈ contentSelectors, sel.matches d.quirksMode e = true := by
  rw [← Option.isSome_iff_exists, ← Option.ne_none_iff_isSome, Ne, mainContent_eq_none_iff]
  push_neg
  simp

theorem mainContent_mem (d : Document) (n : Node) (h : mainContent d = some n) :
    n ∈ d.elements ∧ ∃ sel ∈ contentSelectors, sel.matches d.quirksMode n = true := by
  obtain ⟨pre, sel, post, before, after, hs, -, hl, hp, -⟩ := (mainContent_eq_some_iff d n).mp h
  exact ⟨by simp [hl], sel, by simp [hs], hp⟩

theorem mainContent_of_main (d : Document) (h : ∃ e ∈ d.elements, e.tag = "main") :
    ∃ before m after, d.elements = before ++ m :: after ∧ m.tag = "main" ∧
      (∀ e ∈ before, e.tag ≠ "main") ∧ mainContent d = some m := by
  have hs : (d.querySelector (.tag "main")).isSome = true := by
    obtain ⟨e, he, ht⟩ := h
    simp only [Document.querySelector, List.find?_isSome]
    exact ⟨e, he, by simp [Selector.matches, ht]⟩
  obtain ⟨m, hm⟩ := Option.isSome_iff_exists.mp hs
  have hm' := hm
  simp only [Document.querySelector, List.find?_eq_some] at hm'
  obtain ⟨hp, before, after, hl, hb⟩ := hm'
  refine ⟨before, m, after, hl, by simpa [Selector.matches] using hp, ?_, ?_⟩
  · intro e he
    simpa [Selector.matches] using hb e he
  · simp [mainContent, hm, jsOr]

/-- The page `simplifyLayout` leaves when a primary content node is found. -/
theorem simplifyLayout_of_some (s : Page) (mc : Node) (h : mainContent s.document = some mc) :
    simplifyLayout s =
      (JsValue.undefined,
        consoleLog "UAL: Simplified Layout (Reader Mode) Applied."
          (injectStyles readerModeCss "ual-reader-mode"
            { s with document := { s.document with bodyChildren := [readerView mc] } })) := by
  simp [simplifyLayout, h, createElement, Node.setId, Node.appendChild, Document.bodyClear,
    Document.bodyAppendChild, readerView, Attrs.empty, cloneNode_true_eq]

theorem simplifyLayout_of_none (s : Page) (h : mainContent s.document = none) :
    simplifyLayout s =
      (JsValue.undefined,
        consoleWarn "UAL: Could not identify main content for Reader Mode." s) := by
  simp [simplifyLayout, h]

theorem simplifyLayout_bodyChildren (s : Page) (mc : Node)
    (h : mainContent s.document = some mc) :
    (simplifyLayout s).2.document.bodyChildren = [readerView mc] := by
  rw [simplifyLayout_of_some s mc h]
  simp [consoleLog, injectStyles_bodyChildren]

theorem simplifyLayout_quirksMode (s : Page) :
    (simplifyLayout s).2.document.quirksMode = s.document.quirksMode := by
  cases h : mainContent s.document with
  | some mc =>
    rw [simplifyLayout_of_some s mc h]
    simp [consoleLog, injectStyles_quirksMode]
  | none => rw [simplifyLayout_of_none s h]; rfl

/-- In a quirks-mode document the class selector `.post` matches the class
`POST`, so the layout transform replaces the body; in the same document with a
doctype nothing matches and the document is kept. -/
theorem mainContent_quirks_mode_ignores_case :
    mainContent quirksPostDocument =
      some (.element "div" ⟨"", ["POST"], []⟩ [.text "story"]) ∧
    (simplifyLayout ⟨quirksPostDocument, []⟩).2.document.bodyChildren =
      [readerView (.element "div" ⟨"", ["POST"], []⟩ [.text "story"])] ∧
    mainContent strictPostDocument = none ∧
    (simplifyLayout ⟨strictPostDocument, []⟩).2.document = strictPostDocument :=
  ⟨rfl, rfl, rfl, rfl⟩

/-- C4: the node `simplifyLayout` picks is the first match, in tree order, of
the first of the selectors `main`, `article`, `#content`, `.post` that matches
any element: a node is picked exactly when it is such a first match and no
element matches an earlier selector, and the reader view then wraps a deep
copy of it. In particular, on a document with a `main` element the reader view
receives a deep copy of the first `main` element, wherever an `article`
element may stand. -/
theorem simplifyLayout_selector_precedence (s : Page) :
    (∀ n, mainContent s.document = some n ↔
      ∃ pre sel post before after, contentSelectors = pre ++ sel :: post ∧
        (∀ s' ∈ pre, ∀ e ∈ s.document.elements, s'.matches s.document.quirksMode e = false) ∧
        s.document.elements = before ++ n :: after ∧
        sel.matches s.document.quirksMode n = true ∧
        ∀ e ∈ before, sel.matches s.document.quirksMode e = false) ∧
    (∀ n, mainContent s.document = some n →
      (simplifyLayout s).2.document.bodyChildren = [readerView (n.cloneNode true)]) ∧
    ((∃ e ∈ s.document.elements, e.tag = "main") →
      ∃ before m after, s.document.elements = before ++ m :: after ∧ m.tag = "main" ∧
        (∀ e ∈ before, e.tag ≠ "main") ∧ mainContent s.document = some m ∧
        (simplifyLayout s).2.document.bodyChildren = [readerView (m.cloneNode true)]) := by
  refine ⟨fun n => mainContent_eq_some_iff s.document n, fun n h => ?_, fun h => ?_⟩
  · rw [cloneNode_true_eq, simplifyLayout_bodyChildren s n h]
  · obtain ⟨before, m, after, hl, ht, hb, hm⟩ := mainContent_of_main s.document h
    exact ⟨before, m, after, hl, ht, hb, hm, by
      rw [cloneNode_true_eq, simplifyLayout_bodyChildren s m hm]⟩

/-- Witness for C4. In `articleBeforeMainDocument` the article precedes the
`main` element in tree order and the reader view wraps the `main` element; in
`articleDocument`, with no `main`, the article is picked; in
`postBeforeContentDocument` the element with ID `content` is picked although
the element of class `post` precedes it; in `postBodyDocument` only `.post`
matches and its match, the body element, is picked. -/
theorem simplifyLayout_selector_precedence_witness :
    (simplifyLayout ⟨articleBeforeMainDocument, []⟩).2.document.bodyChildren =
      [readerView (.element "main" Attrs.empty [.element "p" Attrs.empty [.text "body text"]])] ∧
    mainContent articleDocument =
      some (.element "article" ⟨"story", [], []⟩ [.element "p" Attrs.empty [.text "text"]]) ∧
    mainContent postBeforeContentDocument =
      some (.element "section" ⟨"content", [], []⟩ [.text "story"]) ∧
    mainContent postBodyDocument =
      some (.element "body" ⟨"", ["post"], []⟩ [.text "hello"]) :=
  ⟨(simplifyLayout_selector_precedence ⟨articleBeforeMainDocument, []⟩).2.1 _ rfl,
    ((simplifyLayout_selector_precedence ⟨articleDocument, []⟩).1 _).mpr
      ⟨[.tag "main"], .tag "article", [.id "content", .cls "post"],
        articleDocument.elements.take 5, articleDocument.elements.drop 6,
        rfl, by decide, rfl, rfl, by decide⟩,
    ((simplifyLayout_selector_precedence ⟨postBeforeContentDocument, []⟩).1 _).mpr
      ⟨[.tag "main", .tag "article"], .id "content", [.cls "post"],
        postBeforeContentDocument.elements.take 4, postBeforeContentDocument.elements.drop 5,
        rfl, by decide, rfl, rfl, by decide⟩,
    ((simplifyLayout_selector_precedence ⟨postBodyDocument, []⟩).1 _).mpr
      ⟨[.tag "main", .tag "article", .id "content"], .cls "post", [],
        postBodyDocument.elements.take 2, postBodyDocument.elements.drop 3,
        rfl, by decide, rfl, rfl, by decide⟩⟩

/-- C5: when no element matches `main`, `article`, `#content` or `.post`,
`simplifyLayout` leaves the document as it was (head and body alike) and
only adds the warning to the console. -/
theorem simplifyLayout_without_content_keeps_document (s : Page)
    (h : ∀ e ∈ s.document.elements, ∀ sel ∈ contentSelectors,
      sel.matches s.document.quirksMode e = false) :
    (simplifyLayout s).2.document = s.document ∧
    (simplifyLayout s).2.console =
      s.console ++ [.warn "UAL: Could not identify main content for Reader Mode."] := by
  rw [simplifyLayout_of_none s ((mainContent_eq_none_iff _).mpr h)]
  exact ⟨rfl, rfl⟩

/-- Witness for C5 on `plainDocument`. -/
theorem simplifyLayout_without_content_keeps_document_witness :
    (∀ e ∈ plainDocument.elements, ∀ sel ∈ contentSelectors,
      sel.matches plainDocument.quirksMode e = false) ∧
    (simplifyLayout ⟨plainDocument, []⟩).2.document = plainDocument ∧
    (simplifyLayout ⟨plainDocument, []⟩).2.console =
      [.warn "UAL: Could not identify main content for Reader Mode."] :=
  have h : ∀ e ∈ plainDocument.elements, ∀ sel ∈ contentSelectors,
      sel.matches plainDocument.quirksMode e = false := by
    decide
  ⟨h, simplifyLayout_without_content_keeps_document ⟨plainDocument, []⟩ h⟩

/-- C6: when some element matches one of the four selectors, `simplifyLayout`
leaves a body with exactly one child, the container `div#ual-reader-view`,
whose only child is the deep copy of the selected node, equal to that node as
it stood in the document before the call. -/
theorem simplifyLayout_with_content_replaces_body (s : Page)
    (h : ∃ e ∈ s.document.elements, ∃ sel ∈ contentSelectors,
      sel.matches s.document.quirksMode e = true) :
    ∃ mc, mainContent s.document = some mc ∧ mc ∈ s.document.elements ∧
      (simplifyLayout s).2.document.bodyChildren =
        [.element "div" ⟨"ual-reader-view", [], []⟩ [mc.cloneNode true]] ∧
      mc.cloneNode true = mc := by
  obtain ⟨mc, hmc⟩ := (mainContent_isSome_iff s.document).mpr h
  refine ⟨mc, hmc, (mainContent_mem _ _ hmc).1, ?_, cloneNode_true_eq mc⟩
  rw [simplifyLayout_bodyChildren s mc hmc, cloneNode_true_eq]
  rfl

/-- Witness for C6 on `articleDocument`, whose body has three children. -/
theorem simplifyLayout_with_content_replaces_body_witness :
    (∃ e ∈ articleDocument.elements, ∃ sel ∈ contentSelectors,
      sel.matches articleDocument.quirksMode e = true) ∧
    (∃ mc, mainContent articleDocument = some mc ∧ mc ∈ articleDocument.elements ∧
      (simplifyLayout ⟨articleDocument, []⟩).2.document.bodyChildren =
        [.element "div" ⟨"ual-reader-view", [], []⟩ [mc.cloneNode true]] ∧
      mc.cloneNode true = mc) ∧
    articleDocument.bodyChildren.length = 3 ∧
    (simplifyLayout ⟨articleDocument, []⟩).2.document.bodyChildren =
      [.element "div" ⟨"ual-reader-view", [], []⟩
        [.element "article" ⟨"story", [], []⟩ [.element "p" Attrs.empty [.text "text"]]]] :=
  have h : ∃ e ∈ articleDocument.elements, ∃ sel ∈ contentSelectors,
      sel.matches articleDocument.quirksMode e = true :=
    ⟨.element "article" ⟨"story", [], []⟩ [.element "p" Attrs.empty [.text "text"]], by
      simp [articleDocument, Document.elements, Document.documentElement, Document.head,
        Document.body, Node.elements, elementsOfList], .tag "article", by
      simp [contentSelectors], rfl⟩
  ⟨h, simplifyLayout_with_content_replaces_body ⟨articleDocument, []⟩ h, rfl, rfl⟩

/-- C9, as the code has it: `simplifyLayout` returns `undefined` on every
page. Whether a primary content node was found shows only in its effects.
When one of the four selectors matches, the body is replaced by the reader
container around the deep copy of the selected node and the console gains the
"Applied" line; when none matches, the document is kept and the console
gains the warning. -/
theorem simplifyLayout_returns_undefined (s : Page) :
    (simplifyLayout s).1 = JsValue.undefined ∧
    ((∃ e ∈ s.document.elements, ∃ sel ∈ contentSelectors,
        sel.matches s.document.quirksMode e = true) →
      (∃ mc, mainContent s.document = some mc ∧
        (simplifyLayout s).2.document.bodyChildren = [readerView (mc.cloneNode true)]) ∧
      (simplifyLayout s).2.console =
        s.console ++ [.log "UAL: Simplified Layout (Reader Mode) Applied."]) ∧
    ((∀ e ∈ s.document.elements, ∀ sel ∈ contentSelectors,
        sel.matches s.document.quirksMode e = false) →
      (simplifyLayout s).2.document = s.document ∧
      (simplifyLayout s).2.console =
        s.console ++ [.warn "UAL: Could not identify main content for Reader Mode."]) := by
  refine ⟨?_, fun h => ?_, fun h => ?_⟩
  · cases h : mainContent s.document with
    | some mc => rw [simplifyLayout_of_some s mc h]
    | none => rw [simplifyLayout_of_none s h]
  · obtain ⟨mc, hmc⟩ := (mainContent_isSome_iff s.document).mpr h
    refine ⟨⟨mc, hmc, ?_⟩, ?_⟩
    · rw [cloneNode_true_eq, simplifyLayout_bodyChildren s mc hmc]
    · rw [simplifyLayout_of_some s mc hmc]
      simp [consoleLog, injectStyles_console]
  · rw [simplifyLayout_of_none s ((mainContent_eq_none_iff _).mpr h)]
    exact ⟨rfl, rfl⟩

/-- Witness for C9 on `articleDocument`, where the article is found, and on
`plainDocument`, where nothing is. -/
theorem simplifyLayout_returns_undefined_witness :
    ((simplifyLayout ⟨articleDocument, []⟩).2.document.bodyChildren =
        [readerView (.element "article" ⟨"story", [], []⟩
          [.element "p" Attrs.empty [.text "text"]])] ∧
      (simplifyLayout ⟨articleDocument, []⟩).2.console =
        [.log "UAL: Simplified Layout (Reader Mode) Applied."]) ∧
    ((simplifyLayout ⟨plainDocument, []⟩).2.document = plainDocument ∧
      (simplifyLayout ⟨plainDocument, []⟩).2.console =
        [.warn "UAL: Could not identify main content for Reader Mode."]) :=
  ⟨⟨rfl, ((simplifyLayout_returns_undefined ⟨articleDocument, []⟩).2.1
      ⟨.element "article" ⟨"story", [], []⟩ [.element "p" Attrs.empty [.text "text"]], by
        simp [articleDocument, Document.elements, Document.documentElement, Document.head,
          Document.body, Node.elements, elementsOfList], .tag "article", by
        simp [contentSelectors], rfl⟩).2⟩,
    (simplifyLayout_returns_undefined ⟨plainDocument, []⟩).2.2 (by decide)⟩

/-- C9 fails as stated: `articleDocument` has a primary content node and
`plainDocument` has none, yet `simplifyLayout` returns the same value,
`undefined`, on both, and a boolean on neither. -/
theorem simplifyLayout_return_values_coincide :
    (∃ mc, mainContent articleDocument = some mc) ∧
    mainContent plainDocument = none ∧
    (simplifyLayout ⟨articleDocument, []⟩).1 = JsValue.undefined ∧
    (simplifyLayout ⟨plainDocument, []⟩).1 = JsValue.undefined ∧
    (simplifyLayout ⟨articleDocument, []⟩).1 = (simplifyLayout ⟨plainDocument, []⟩).1 ∧
    (simplifyLayout ⟨articleDocument, []⟩).1 ≠ JsValue.bool true ∧
    (simplifyLayout ⟨plainDocument, []⟩).1 ≠ JsValue.bool false :=
  ⟨⟨_, rfl⟩, rfl, rfl, rfl, rfl, by
    show JsValue.undefined ≠ JsValue.bool true
    exact fun h => JsValue.noConfusion h, by
    show JsValue.undefined ≠ JsValue.bool false
    exact fun h => JsValue.noConfusion h⟩

/-! ## Lookups after the layer's own insertions -/

theorem getElementById_headAppendChild_none (d : Document) (x : Node) (i : String)
    (h : d.getElementById i = none) (hx : ∀ e ∈ x.elements, e.hasId i = false) :
    (d.headAppendChild x).getElementById i = none := by
  rw [getElementById_eq_none_iff] at h ⊢
  intro e he
  rw [Document.elements_eq, headElements_headAppendChild] at he
  simp only [List.mem_cons, List.mem_append] at he
  rcases he with rfl | rfl | (he | he) | rfl | he
  · exact h d.documentElement (by simp [Document.elements_eq])
  · exact h d.head (by simp [Document.elements_eq])
  · exact h e (by simp [Document.elements_eq, he])
  · exact hx e he
  · exact h d.body (by simp [Document.elements_eq])
  · exact h e (by rw [Document.elements_eq]; simp; exact Or.inr (Or.inr (Or.inr (Or.inr he))))

theorem elements_readerBody (d : Document) (mc : Node) :
    ({ d with bodyChildren := [readerView mc] } : Document).bodyElements =
      readerView mc :: mc.elements := by
  simp [Document.bodyElements, elementsOfList, readerView, Node.elements]

theorem getElementById_readerBody_none (d : Document) (mc : Node) (i : String)
    (hmc : mc ∈ d.elements) (h : d.getElementById i = none) (hi : i ≠ "ual-reader-view") :
    ({ d with bodyChildren := [readerView mc] } : Document).getElementById i = none := by
  rw [getElementById_eq_none_iff] at h ⊢
  intro e he
  rw [Document.elements_eq, elements_readerBody] at he
  simp only [List.mem_cons, List.mem_append] at he
  rcases he with rfl | rfl | he | rfl | rfl | he
  · exact h d.documentElement (by simp [Document.elements_eq])
  · exact h d.head (by simp [Document.elements_eq])
  · exact h e (by simp [Document.elements_eq]; exact Or.inr (Or.inr (Or.inl he)))
  · exact h d.body (by simp [Document.elements_eq])
  · simp [readerView, Node.hasId, Node.id, Ne.symm hi]
  · exact h e (elements_subset d.documentElement mc hmc e he)

theorem hasId_eq_false_of_id_ne (e : Node) (i : String) (h : e.id ≠ i) : e.hasId i = false := by
  simp [Node.hasId, h]

theorem getElementById_none_of_not_mem (d : Document) (i : String) (ids : List String)
    (h : ∀ e ∈ d.elements, e.id ∉ ids) (hi : i ∈ ids) : d.getElementById i = none := by
  rw [getElementById_eq_none_iff]
  intro e he
  apply hasId_eq_false_of_id_ne
  intro heq
  exact h e he (heq ▸ hi)

theorem applyHighContrast_document_of_none (s : Page)
    (h : s.document.getElementById "ual-high-contrast" = none) :
    (applyHighContrast s).document =
      s.document.headAppendChild (styleBlock highContrastCss "ual-high-contrast") := by
  simp [applyHighContrast, consoleLog, injectStyles_of_none _ _ s h]

theorem applyDyslexiaFriendlyFont_document_of_none (s : Page)
    (h1 : s.document.getElementById "ual-dyslexic-font-link" = none)
    (h2 : s.document.getElementById "ual-dyslexic-font-style" = none) :
    (applyDyslexiaFriendlyFont s).document =
      (s.document.headAppendChild fontLink).headAppendChild
        (styleBlock dyslexicFontCss "ual-dyslexic-font-style") := by
  have hl : (((createElement "link").setAttr "href"
      "https://fonts.googleapis.com/css2?family=Open+Dyslexic&display=swap").setAttr
      "rel" "stylesheet").setId "ual-dyslexic-font-link" = fontLink := rfl
  have h3 : (s.document.headAppendChild fontLink).getElementById "ual-dyslexic-font-style"
      = none :=
    getElementById_headAppendChild_none _ _ _ h2 (by decide)
  have hid : fontLink.id = "ual-dyslexic-font-link" := rfl
  simp only [applyDyslexiaFriendlyFont, hl, hid, h1, consoleLog]
  rw [injectStyles_of_none _ _ _ h3]

theorem simplifyLayout_document_of_some (s : Page) (mc : Node)
    (h : mainContent s.document = some mc)
    (hrm : s.document.getElementById "ual-reader-mode" = none) :
    (simplifyLayout s).2.document =
      ({ s.document with bodyChildren := [readerView mc] } : Document).headAppendChild
        (styleBlock readerModeCss "ual-reader-mode") := by
  have h1 := getElementById_readerBody_none s.document mc "ual-reader-mode"
    (mainContent_mem _ _ h).1 hrm (by decide)
  rw [simplifyLayout_of_some s mc h]
  simp only [consoleLog]
  rw [injectStyles_of_none _ _ _ h1]

/-! ## Orchestrator -/

theorem injectStyles_document_congr (rules i : String) (s t : Page)
    (h : s.document = t.document) :
    (injectStyles rules i s).document = (injectStyles rules i t).document := by
  cases hs : s.document.getElementById i with
  | some e =>
    rw [injectStyles_of_some rules i s e hs, injectStyles_of_some rules i t e (h ▸ hs)]
    exact h
  | none =>
    rw [injectStyles_of_none rules i s hs, injectStyles_of_none rules i t (h ▸ hs)]
    simp [h]

theorem applyHighContrast_document_congr (s t : Page) (h : s.document = t.document) :
    (applyHighContrast s).document = (applyHighContrast t).document := by
  simp only [applyHighContrast, consoleLog]
  exact injectStyles_document_congr _ _ s t h

theorem applyDyslexiaFriendlyFont_document_congr (s t : Page) (h : s.document = t.document) :
    (applyDyslexiaFriendlyFont s).document = (applyDyslexiaFriendlyFont t).document := by
  simp only [applyDyslexiaFriendlyFont, consoleLog]
  apply injectStyles_document_congr
  rw [h]
  cases t.document.getElementById _ <;> simp [h]

theorem simplifyLayout_document_congr (s t : Page) (h : s.document = t.document) :
    (simplifyLayout s).2.document = (simplifyLayout t).2.document := by
  cases hs : mainContent s.document with
  | some mc =>
    rw [simplifyLayout_of_some s mc hs, simplifyLayout_of_some t mc (h ▸ hs)]
    simp only [consoleLog]
    apply injectStyles_document_congr
    simp [h]
  | none =>
    rw [simplifyLayout_of_none s hs, simplifyLayout_of_none t (h ▸ hs)]
    exact h

theorem runWhen_document_congr (flag : Bool) (f : Page → Page)
    (hf : ∀ s t : Page, s.document = t.document → (f s).document = (f t).document)
    (s t : Page) (h : s.document = t.document) :
    (runWhen flag f s).document = (runWhen flag f t).document := by
  cases flag
  · simpa [runWhen] using h
  · simpa [runWhen] using hf s t h

theorem applyUAL_eq (p : Profile) (s : Page) :
    applyUAL p s =
      if p.needsSimplifiedLayout then
        runWhen p.hasDyslexia applyDyslexiaFriendlyFont
          (runWhen p.hasLowVision applyHighContrast (simplifyLayout (applyUAL_header p s)).2)
      else
        consoleLog "UAL application complete."
          (runWhen p.hasDyslexia applyDyslexiaFriendlyFont
            (runWhen p.hasLowVision applyHighContrast (applyUAL_header p s))) := rfl

/-- C1: for every profile and page, the document `applyUAL` leaves is the one
obtained by running `simplifyLayout` when `needsSimplifiedLayout`, then
`applyHighContrast` when `hasLowVision`, then `applyDyslexiaFriendlyFont` when
`hasDyslexia`, each at most once and in that order; with all flags false the
document is the one it was given. -/
theorem applyUAL_document_eq_pipeline (p : Profile) (s : Page) :
    (applyUAL p s).document = (pipeline p s).document ∧
    (applyUAL ⟨false, false, false⟩ s).document = s.document := by
  refine ⟨?_, rfl⟩
  have h0 : (applyUAL_header p s).document = s.document := rfl
  rw [applyUAL_eq]
  obtain ⟨lv, dy, sl⟩ := p
  cases sl
  · simp only [pipeline, runWhen, Bool.false_eq_true, if_false]
    show (runWhen dy applyDyslexiaFriendlyFont (runWhen lv applyHighContrast _)).document = _
    exact runWhen_document_congr _ _ applyDyslexiaFriendlyFont_document_congr _ _
      (runWhen_document_congr _ _ applyHighContrast_document_congr _ _ h0)
  · simp only [pipeline, if_true]
    exact runWhen_document_congr _ _ applyDyslexiaFriendlyFont_document_congr _ _
      (runWhen_document_congr _ _ applyHighContrast_document_congr _ _
        (simplifyLayout_document_congr _ _ h0))

/-- C7: with the built-in profile (all three flags true), on a document whose
selected primary content node is an `article` and in which no element carries
an identifier the layer injects, `applyUAL` leaves a body whose only child is
the reader container around a copy of that article and a head extended by
exactly four elements: the layout style block, the high-contrast style block,
the font link and then the dyslexic-font style block. -/
theorem applyUAL_full_profile_on_article (s : Page) (mc : Node)
    (hmc : mainContent s.document = some mc) (_htag : mc.tag = "article")
    (hids : ∀ e ∈ s.document.elements, e.id ∉ injectedIds) :
    (applyUAL userProfile s).document =
      { s.document with
        bodyChildren := [readerView (mc.cloneNode true)]
        headChildren := s.document.headChildren ++
          [styleBlock readerModeCss "ual-reader-mode",
           styleBlock highContrastCss "ual-high-contrast",
           fontLink,
           styleBlock dyslexicFontCss "ual-dyslexic-font-style"] } := by
  have hid : ∀ i ∈ injectedIds, s.document.getElementById i = none :=
    fun i hi => getElementById_none_of_not_mem _ _ _ hids hi
  have hmem := (mainContent_mem _ _ hmc).1
  have hmc0 : mainContent (applyUAL_header userProfile s).document = some mc := hmc
  have hrm : (applyUAL_header userProfile s).document.getElementById "ual-reader-mode" = none :=
    hid _ (by decide)
  have hlay := simplifyLayout_document_of_some (applyUAL_header userProfile s) mc hmc0 hrm
  have base : ∀ i ∈ injectedIds, i ≠ "ual-reader-view" → i ≠ "ual-reader-mode" →
      (simplifyLayout (applyUAL_header userProfile s)).2.document.getElementById i = none := by
    intro i hi h1 h2
    rw [hlay]
    apply getElementById_headAppendChild_none
    · exact getElementById_readerBody_none _ _ _ hmem (hid i hi) h1
    · exact styleBlock_hasId_false _ _ _ (Ne.symm h2)
  have hp1 : userProfile.needsSimplifiedLayout = true := rfl
  have hp2 : userProfile.hasLowVision = true := rfl
  have hp3 : userProfile.hasDyslexia = true := rfl
  rw [applyUAL_eq]
  simp only [hp1, hp2, hp3, runWhen, if_true]
  have hc := base "ual-high-contrast" (by decide) (by decide) (by decide)
  have hl := base "ual-dyslexic-font-link" (by decide) (by decide) (by decide)
  have hs := base "ual-dyslexic-font-style" (by decide) (by decide) (by decide)
  have hc1 := applyHighContrast_document_of_none _ hc
  rw [applyDyslexiaFriendlyFont_document_of_none, hc1, hlay, cloneNode_true_eq]
  · have hd : (applyUAL_header userProfile s).document = s.document := rfl
    simp [Document.headAppendChild, hd]
  · rw [hc1]
    exact getElementById_headAppendChild_none _ _ _ hl
      (styleBlock_hasId_false _ _ _ (by decide))
  · rw [hc1]
    exact getElementById_headAppendChild_none _ _ _ hs
      (styleBlock_hasId_false _ _ _ (by decide))

set_option maxRecDepth 100000 in
/-- Witness for C7 on `articleDocument`. The style blocks are the elements the
code builds: the dyslexic-font one holds four text nodes and four `br`
elements, one for each line feed of its rule text. -/
theorem applyUAL_full_profile_on_article_witness :
    styleBlock dyslexicFontCss "ual-dyslexic-font-style" =
      .element "style" ⟨"ual-dyslexic-font-style", [], []⟩
        [brElement,
         .text "            body, p, h1, h2, h3, li, a, span \x7b", brElement,
         .text "                font-family: \x27Open Dyslexic\x27, sans-serif !important;",
         brElement,
         .text "            \x7d", brElement,
         .text "        "] ∧
    (styleBlock readerModeCss "ual-reader-mode").children.length = 22 ∧
    (styleBlock highContrastCss "ual-high-contrast").children.length = 24 ∧
    (mainContent articleDocument =
        some (.element "article" ⟨"story", [], []⟩ [.element "p" Attrs.empty [.text "text"]]) ∧
      (∀ e ∈ articleDocument.elements, e.id ∉ injectedIds)) ∧
    (applyUAL userProfile ⟨articleDocument, []⟩).document =
      { articleDocument with
        bodyChildren := [readerView
          (.element "article" ⟨"story", [], []⟩ [.element "p" Attrs.empty [.text "text"]])]
        headChildren := [.element "title" Attrs.empty [.text "News"],
           styleBlock readerModeCss "ual-reader-mode",
           styleBlock highContrastCss "ual-high-contrast",
           fontLink,
           styleBlock dyslexicFontCss "ual-dyslexic-font-style"] } :=
  have h : ∀ e ∈ articleDocument.elements, e.id ∉ injectedIds := by decide
  ⟨rfl, rfl, rfl, ⟨rfl, h⟩, applyUAL_full_profile_on_article ⟨articleDocument, []⟩ _ rfl rfl h⟩

/-- C8, as the code has it: with only `hasLowVision` set, on a document in
which no element carries an identifier the layer injects, `applyUAL` appends
one element to the head, the style block with identifier "ual-high-contrast",
and changes nothing else: the body is kept and no font link is added. -/
theorem applyUAL_low_vision_only (s : Page)
    (hids : ∀ e ∈ s.document.elements, e.id ∉ injectedIds) :
    (applyUAL ⟨true, false, false⟩ s).document =
      { s.document with
        headChildren := s.document.headChildren ++
          [styleBlock highContrastCss "ual-high-contrast"] } := by
  have hc : (applyUAL_header ⟨true, false, false⟩ s).document.getElementById
      "ual-high-contrast" = none :=
    getElementById_none_of_not_mem _ _ _ hids (by decide)
  rw [applyUAL_eq]
  simp only [runWhen, if_true, if_false, Bool.false_eq_true, consoleLog]
  rw [applyHighContrast_document_of_none _ hc]
  rfl

set_option maxRecDepth 100000 in
/-- Witness for C8 on `plainDocument`. The style block is the element the code
builds: twelve text nodes and twelve `br` elements, one for each line feed of
the rule text. -/
theorem applyUAL_low_vision_only_witness :
    (styleBlock highContrastCss "ual-high-contrast").children.length = 24 ∧
    (styleBlock highContrastCss "ual-high-contrast").elements.length = 13 ∧
    (∀ e ∈ plainDocument.elements, e.id ∉ injectedIds) ∧
    (applyUAL ⟨true, false, false⟩ ⟨plainDocument, []⟩).document =
      { plainDocument with
        headChildren := [.element "title" Attrs.empty [.text "Home"],
          styleBlock highContrastCss "ual-high-contrast"] } :=
  have h : ∀ e ∈ plainDocument.elements, e.id ∉ injectedIds := by decide
  ⟨rfl, rfl, h, applyUAL_low_vision_only ⟨plainDocument, []⟩ h⟩

/-- C8 fails as stated: on the empty document the one element `applyUAL` adds
to the head with only `hasLowVision` set has the identifier
"ual-high-contrast", not "high-contrast", and no element with the ID
"high-contrast" exists afterwards. -/
theorem applyUAL_low_vision_identifier_is_prefixed :
    (∀ e ∈ emptyDocument.elements, e.id ∉ injectedIds) ∧
    (applyUAL ⟨true, false, false⟩ ⟨emptyDocument, []⟩).document.headChildren =
      [styleBlock highContrastCss "ual-high-contrast"] ∧
    (styleBlock highContrastCss "ual-high-contrast").id ≠ "high-contrast" ∧
    (applyUAL ⟨true, false, false⟩ ⟨emptyDocument, []⟩).document.getElementById
      "high-contrast" = none :=
  ⟨by decide, rfl, by decide, rfl⟩

/-! ## Re-running the layout transform -/

theorem sameName_readerView_content (q : Bool) :
    sameName q "ual-reader-view" "content" = false := by
  cases q <;> decide

theorem readerView_matches_none (q : Bool) (n : Node) :
    ∀ sel ∈ contentSelectors, sel.matches q (readerView n) = false := by
  intro sel hsel
  simp only [contentSelectors, List.mem_cons, List.mem_singleton, List.not_mem_nil, or_false]
    at hsel
  rcases hsel with rfl | rfl | rfl | rfl <;>
    simp [Selector.matches, readerView, Node.tag, Node.id, Node.classes,
      sameName_readerView_content]

/-- After a successful `simplifyLayout` the copy of the selected node is an
element of the new document, so a second run finds content again, and what it
finds matches one of the four selectors, which the reader container does
not. -/
theorem simplifyLayout_rerun (s : Page) (mc : Node) (h : mainContent s.document = some mc) :
    ∃ mc', mainContent (simplifyLayout s).2.document = some mc' ∧
      mc' ∈ (simplifyLayout s).2.document.elements ∧ mc' ≠ readerView mc := by
  obtain ⟨hmem, sel, hsel, hm⟩ := mainContent_mem _ _ h
  have hb := simplifyLayout_bodyChildren s mc h
  have hin : mc ∈ (simplifyLayout s).2.document.elements := by
    rw [Document.elements_eq]
    have : (simplifyLayout s).2.document.bodyElements = readerView mc :: mc.elements := by
      simp [Document.bodyElements, hb, elementsOfList, readerView, Node.elements]
    rw [this]
    have hself := mem_elements_self _ _ hmem
    simp [hself]
  have hq := simplifyLayout_quirksMode s
  obtain ⟨mc', hmc'⟩ := (mainContent_isSome_iff _).mpr ⟨mc, hin, sel, hsel, hq ▸ hm⟩
  refine ⟨mc', hmc', (mainContent_mem _ _ hmc').1, ?_⟩
  obtain ⟨-, sel', hsel', hm'⟩ := mainContent_mem _ _ hmc'
  intro heq
  rw [heq, readerView_matches_none _ mc sel' hsel'] at hm'
  exact Bool.false_ne_true hm'

/-- C10 fails as stated: no page exists on which a first `simplifyLayout`
finds primary content and a second run, on the page the first one left,
either finds none or selects the reader container, the only child the first
run left in the body. -/
theorem simplifyLayout_rerun_never_misses :
    ¬ ∃ s : Page, (∃ mc, mainContent s.document = some mc) ∧
      (mainContent (simplifyLayout s).2.document = none ∨
        ∃ rv, (simplifyLayout s).2.document.bodyChildren = [rv] ∧
          mainContent (simplifyLayout s).2.document = some rv) := by
  rintro ⟨s, ⟨mc, hmc⟩, h⟩
  obtain ⟨mc', hmc', -, hne⟩ := simplifyLayout_rerun s mc hmc
  rcases h with h | ⟨rv, hrv, hsel⟩
  · rw [h] at hmc'
    exact Option.noConfusion hmc'
  · rw [simplifyLayout_bodyChildren s mc hmc] at hrv
    rw [hsel] at hmc'
    simp only [List.cons.injEq, and_true] at hrv
    simp only [Option.some.injEq] at hmc'
    exact hne (hmc'.symm.trans hrv.symm)

/-- C10, as the code has it: the body replacement is not idempotent, since on
`postBodyDocument`, whose `body` element carries the class `post`, a first
`simplifyLayout` succeeds and a second run changes the document again. On
every page on which the first run finds primary content, the second run finds
a primary content node too, an element of the simplified document that is not
the reader container the first run left as the only child of the body. -/
theorem simplifyLayout_rerun_not_idempotent :
    (∃ s : Page, (∃ mc, mainContent s.document = some mc) ∧
      (simplifyLayout (simplifyLayout s).2).2.document ≠ (simplifyLayout s).2.document) ∧
    (∀ (s : Page) (mc : Node), mainContent s.document = some mc →
      (simplifyLayout s).2.document.bodyChildren = [readerView (mc.cloneNode true)] ∧
      ∃ mc', mainContent (simplifyLayout s).2.document = some mc' ∧
        mc' ∈ (simplifyLayout s).2.document.elements ∧
        mc' ≠ readerView (mc.cloneNode true)) := by
  constructor
  · refine ⟨⟨postBodyDocument, []⟩, ⟨_, rfl⟩, fun h => ?_⟩
    have hb := congrArg Document.bodyChildren h
    have h1 : (simplifyLayout ⟨postBodyDocument, []⟩).2.document.bodyChildren =
        [readerView (.element "body" ⟨"", ["post"], []⟩ [.text "hello"])] := rfl
    have h2 : (simplifyLayout (simplifyLayout ⟨postBodyDocument, []⟩).2).2.document.bodyChildren =
        [readerView (.element "body" ⟨"", ["post"], []⟩
          [readerView (.element "body" ⟨"", ["post"], []⟩ [.text "hello"])])] := rfl
    rw [h1, h2] at hb
    simp [readerView] at hb
  · intro s mc h
    rw [cloneNode_true_eq]
    exact ⟨simplifyLayout_bodyChildren s mc h, simplifyLayout_rerun s mc h⟩

end UAL
